import Mathlib

/-!
# Torpedo — a manual PE32+ module loader, shallowly embedded

This development embeds the data model and operations of the Torpedo loader
(`include/internal/binarywriter.hpp`, `pe.hpp`, `loader.hpp`, `peerror.hpp`)
and proves properties of the embedded code.

Modelling conventions:
* A byte buffer read from disk is a `List Nat` (each element one byte).
* The mapped virtual region is a total function `Buf := Nat → Nat` from byte
  offsets (relative to the allocation base) to byte values; `VirtualAlloc`
  zero-initialises, so the initial region is `fun _ => 0`.
* Machine integers are `Nat` with explicit `% 2 ^ w` where the C++ code can
  wrap (the 64-bit relocation delta and the DIR64 add).
* The host OS surface (§6 of the spec) is an oracle record `Host`; calls into
  it are recorded as an event list `List Ev` so resource claims can count
  allocation / release pairs.
* Self-describing in-memory tables (import descriptors, thunk arrays,
  relocation blocks) are walked with explicit fuel; the C++ loops are bounded
  only by the bytes of the image, which fuel over-approximates.
-/

set_option maxRecDepth 100000

namespace Torpedo

/-! ## Byte-level primitives -/

/-- Read one byte of an on-disk buffer; out-of-range reads default to 0. -/
def byteAt (bs : List Nat) (i : Nat) : Nat := bs.getD i 0

/-- Little-endian read of `k` bytes of an on-disk buffer at offset `off`. -/
def readLE (bs : List Nat) : Nat → Nat → Nat
  | 0, _ => 0
  | k + 1, off => byteAt bs off % 256 + 256 * readLE bs k (off + 1)

/-- A 16-bit little-endian read (e.g. `e_magic`, `Machine`, `NumberOfSections`). -/
def readLE16 (bs : List Nat) (off : Nat) : Nat := readLE bs 2 off

/-- A 32-bit little-endian read (e.g. `e_lfanew`, `Signature`, RVAs and sizes). -/
def readLE32 (bs : List Nat) (off : Nat) : Nat := readLE bs 4 off

/-- A 64-bit little-endian read (e.g. `OptionalHeader.ImageBase`). -/
def readLE64 (bs : List Nat) (off : Nat) : Nat := readLE bs 8 off

/-- The mapped region: byte offset → byte value. -/
def Buf : Type := Nat → Nat

/-- Store one byte into the region. -/
def store (b : Buf) (i v : Nat) : Buf := fun j => if j = i then v else b j

/-- Little-endian read of `k` bytes of the region at offset `off`. -/
def readB (b : Buf) : Nat → Nat → Nat
  | 0, _ => 0
  | k + 1, off => b off % 256 + 256 * readB b k (off + 1)

/-- Little-endian write of the low `k` bytes of `v` into the region. -/
def writeB (b : Buf) : Nat → Nat → Nat → Buf
  | 0, _, _ => b
  | k + 1, off, v => writeB (store b off (v % 256)) k (off + 1) (v / 256)

def readB16 (b : Buf) (off : Nat) : Nat := readB b 2 off
def readB32 (b : Buf) (off : Nat) : Nat := readB b 4 off
def readB64 (b : Buf) (off : Nat) : Nat := readB b 8 off
def writeB64 (b : Buf) (off v : Nat) : Buf := writeB b 8 off v

/-! ## BinaryWriter (`binarywriter.hpp`) — the spec's ByteCursor -/

/-- Embeds `Torpedo::BinaryWriter`: a bounded writer `(base, size)` with position
`pos`, initially 0.  `buf` is the underlying region. -/
structure BinaryWriter where
  buf : Buf
  size : Nat
  pos : Nat

/-- Embeds `memcpy(&_buffer[_pos], data.data(), data.size_bytes())`:
bytes `[pos, pos + data.length)` come from `data`, the rest is unchanged. -/
def copyList (b : Buf) (pos : Nat) (data : List Nat) : Buf :=
  fun i => if pos ≤ i ∧ i < pos + data.length then byteAt data (i - pos) else b i

/-- Embeds `BinaryWriter::operator<<(std::span)`: `CanWrite` guard (`_pos + n ≤ _size`)
then `ProceedBuffer` (memcpy and advance); on overflow nothing happens. -/
def BinaryWriter.writeSpan (bw : BinaryWriter) (data : List Nat) : BinaryWriter :=
  if bw.pos + data.length ≤ bw.size then
    ⟨copyList bw.buf bw.pos data, bw.size, bw.pos + data.length⟩
  else bw

/-- Embeds `BinaryWriter::Seek`: set `_pos` iff `offset < _size`. -/
def BinaryWriter.seek (bw : BinaryWriter) (off : Nat) : BinaryWriter :=
  if off < bw.size then ⟨bw.buf, bw.size, off⟩ else bw

/-! ## ImageParser (`pe.hpp`, class `PE`) -/

/-- Embeds `Torpedo::PEError` (`peerror.hpp`). -/
inductive PEError where
  | Success
  | InvalidPeFormat
  | NotSupportedMachine
deriving DecidableEq, Repr

/-- One `IMAGE_SECTION_HEADER`, together with its own offset inside the buffer
it was parsed from (the source keeps raw pointers into the buffer; `hdrOff` is
that pointer, expressed as an offset). Field offsets inside the 40-byte header:
`Misc.VirtualSize` +8, `VirtualAddress` +12, `SizeOfRawData` +16,
`PointerToRawData` +20, `Characteristics` +36. -/
structure SectionHeader where
  hdrOff : Nat
  virtualSize : Nat
  virtualAddress : Nat
  sizeOfRawData : Nat
  pointerToRawData : Nat
  characteristics : Nat
deriving DecidableEq, Repr

/-- Decode the `IMAGE_SECTION_HEADER` at offset `off` of an on-disk buffer. -/
def sectionAt (bs : List Nat) (off : Nat) : SectionHeader :=
  ⟨off, readLE32 bs (off + 8), readLE32 bs (off + 12), readLE32 bs (off + 16),
    readLE32 bs (off + 20), readLE32 bs (off + 36)⟩

/-- Parsed state of `Torpedo::PE`: the readiness flag, the error, `e_lfanew`,
the section-header index and the owned byte buffer. -/
structure PE where
  ok : Bool
  error : PEError
  eLfanew : Nat
  sections : List SectionHeader
  data : List Nat

/-- Embeds `PE::Parse`: check `e_magic == IMAGE_DOS_SIGNATURE` (0x5A4D) and
`e_lfanew ≥ sizeof(IMAGE_DOS_HEADER)` (64), then `Signature ==
IMAGE_NT_SIGNATURE` (0x4550), then `Machine == IMAGE_FILE_MACHINE_AMD64`
(0x8664), then collect `NumberOfSections` headers starting at
`IMAGE_FIRST_SECTION` = `e_lfanew + 24 + SizeOfOptionalHeader`.
No other validation is performed. -/
def PE.parse (bs : List Nat) : PE :=
  let lfanew := readLE32 bs 60
  if readLE16 bs 0 ≠ 0x5A4D ∨ lfanew < 64 then
    ⟨false, .InvalidPeFormat, lfanew, [], bs⟩
  else if readLE32 bs lfanew ≠ 0x4550 then
    ⟨false, .InvalidPeFormat, lfanew, [], bs⟩
  else if readLE16 bs (lfanew + 4) ≠ 0x8664 then
    ⟨false, .NotSupportedMachine, lfanew, [], bs⟩
  else
    let n := readLE16 bs (lfanew + 6)
    let st := lfanew + 24 + readLE16 bs (lfanew + 20)
    ⟨true, .Success, lfanew, (List.range n).map (fun k => sectionAt bs (st + 40 * k)), bs⟩

/-- Offset of the optional header: `e_lfanew + 4 (Signature) + 20 (FileHeader)`. -/
def PE.optBase (pe : PE) : Nat := pe.eLfanew + 24

/-- The `FileHeader.NumberOfSections` field. -/
def PE.numberOfSections (pe : PE) : Nat := readLE16 pe.data (pe.eLfanew + 6)

/-- The `OptionalHeader.ImageBase` field (PE32+, 64-bit, at optional header offset 24). -/
def PE.imageBase (pe : PE) : Nat := readLE64 pe.data (pe.optBase + 24)

/-- Embeds `PE::ImageSize`, i.e. `OptionalHeader.SizeOfImage` (optional header offset 56). -/
def PE.sizeOfImage (pe : PE) : Nat := readLE32 pe.data (pe.optBase + 56)

/-- The `OptionalHeader.DataDirectory[i].VirtualAddress` field (directory array at
optional header offset 112, 8 bytes per entry). -/
def PE.dirVA (pe : PE) (i : Nat) : Nat := readLE32 pe.data (pe.optBase + 112 + 8 * i)

/-- The `OptionalHeader.DataDirectory[i].Size` field. -/
def PE.dirSize (pe : PE) (i : Nat) : Nat := readLE32 pe.data (pe.optBase + 112 + 8 * i + 4)

/-- File offset of the start of the section table, `IMAGE_FIRST_SECTION`:
`e_lfanew + 24 + SizeOfOptionalHeader`. -/
def PE.sectionTableStart (pe : PE) : Nat :=
  pe.optBase + readLE16 pe.data (pe.eLfanew + 20)

/-- File offset one past the end of the section table. -/
def PE.sectionTableEnd (pe : PE) : Nat :=
  pe.sectionTableStart + 40 * pe.numberOfSections

/-- Embeds `PE::Rva2Raw`: find the first section with
`VirtualAddress ≤ rva < VirtualAddress + Misc.VirtualSize` (`detail::inBetween`)
and map `rva` into its raw data; return 0 when no section covers the RVA. -/
def PE.rva2Raw (pe : PE) (rva : Nat) : Nat :=
  match pe.sections.find? (fun s =>
      decide (s.virtualAddress ≤ rva ∧ rva < s.virtualAddress + s.virtualSize)) with
  | some s => rva - s.virtualAddress + s.pointerToRawData
  | none => 0

/-- Embeds `PE::ImportDirectory`: `none` when the import data directory
(`DataDirectory[1]`) has size 0, otherwise the file offset
`Rva2Raw(VirtualAddress)` of the returned pointer `_data.data() + raw`. -/
def PE.importDirectoryOff (pe : PE) : Option Nat :=
  if pe.dirSize 1 = 0 then none else some (pe.rva2Raw (pe.dirVA 1))

/-! ## MappedImage (`loader.hpp`, class `Module`) -/

/-- Parsed state of `Torpedo::Module` (the spec's MappedImage): the allocation
base address, the region size, validation state, and the recorded auxiliary
module handles (`_importModules`). -/
structure Module where
  base : Nat
  imageSize : Nat
  ok : Bool
  error : PEError
  eLfanew : Nat
  sections : List SectionHeader
  importModules : List Nat
deriving DecidableEq, Repr

/-- Decode the `IMAGE_SECTION_HEADER` at region offset `off`. -/
def sectionAtB (b : Buf) (off : Nat) : SectionHeader :=
  ⟨off, readB32 b (off + 8), readB32 b (off + 12), readB32 b (off + 16),
    readB32 b (off + 20), readB32 b (off + 36)⟩

/-- Embeds `Module::Parse`: the same DOS / NT / machine checks as `PE::Parse`, run on
the copied headers in the mapped region; on success the section table is
re-indexed and `OptionalHeader.ImageBase` (region offset `e_lfanew + 48`) is
overwritten with the actual allocation base.  Returns the module state together
with the (possibly mutated) region. -/
def Module.parse (b : Buf) (base imageSize : Nat) : Module × Buf :=
  let lfanew := readB32 b 60
  if readB16 b 0 ≠ 0x5A4D ∨ lfanew < 64 then
    (⟨base, imageSize, false, .InvalidPeFormat, lfanew, [], []⟩, b)
  else if readB32 b lfanew ≠ 0x4550 then
    (⟨base, imageSize, false, .InvalidPeFormat, lfanew, [], []⟩, b)
  else if readB16 b (lfanew + 4) ≠ 0x8664 then
    (⟨base, imageSize, false, .NotSupportedMachine, lfanew, [], []⟩, b)
  else
    let n := readB16 b (lfanew + 6)
    let st := lfanew + 24 + readB16 b (lfanew + 20)
    (⟨base, imageSize, true, .Success, lfanew,
      (List.range n).map (fun k => sectionAtB b (st + 40 * k)), []⟩,
     writeB64 b (lfanew + 48) base)

/-- Embeds `Module::FetchDataDirectory<T>`: `none` when `DataDirectory[i].Size` is 0,
otherwise the RVA `DataDirectory[i].VirtualAddress` (the source returns the
pointer `_base + VirtualAddress`; region offsets equal RVAs). -/
def Module.fetchDataDirectory (m : Module) (b : Buf) (i : Nat) : Option Nat :=
  if readB32 b (m.eLfanew + 136 + 8 * i + 4) = 0 then none
  else some (readB32 b (m.eLfanew + 136 + 8 * i))

/-! ## The host OS surface (§6) and its event trace -/

/-- The abstract host provider: `VirtualAlloc` outcome, `LoadLibraryA`
(keyed by the RVA of the DLL-name string; 0 = failure), `GetProcAddress` by
ordinal and by name (keyed by the RVA of the `IMAGE_IMPORT_BY_NAME`; 0 =
failure), and `VirtualProtect` success. -/
structure Host where
  allocBase : Option Nat
  loadLib : Nat → Nat
  getProcOrd : Nat → Nat → Nat
  getProcName : Nat → Nat → Nat
  protOk : Nat → Nat → Nat → Bool

/-- Host calls observable during a load and a `Module` destruction. -/
inductive Ev where
  | alloc (size : Nat)
  | freelib (h : Nat)
  | vprotect (addr len prot : Nat)
  | vfree (addr len : Nat)
deriving DecidableEq, BEq, Repr

/-- Embeds `Module::~Module`: `FreeLibrary` on every recorded handle in order, then
`VirtualFree(_base, _imageSize, MEM_FREE)` when `_base` is non-null. -/
def destroyEvents (m : Module) : List Ev :=
  m.importModules.map Ev.freelib ++
    (if m.base ≠ 0 then [Ev.vfree m.base m.imageSize] else [])

/-! ## Phase 5 — BuildIAT (`ModuleLoader::BuildIAT`) -/

/-- Outcome of the IAT walk.  `done` is both the descriptor-array terminator
and a completed thunk table; `fuelOut` cannot arise from the C++ code (its
loops are bounded by the image bytes) and is excluded by fuel hypotheses. -/
inductive IATStatus where
  | done
  | loadFail
  | resolveFail
  | fuelOut
deriving DecidableEq, Repr

/-- Result of `BuildIAT`: final status, the IAT stores performed
(region offset, resolved address), the handles recorded via
`AddImportModule`, and every handle successfully returned by `LoadLibraryA`. -/
structure IATRes where
  status : IATStatus
  writes : List (Nat × Nat)
  recorded : List Nat
  loaded : List Nat
deriving DecidableEq, Repr

/-- One thunk resolution: `IMAGE_SNAP_BY_ORDINAL` tests bit 63; ordinal
imports use `IMAGE_ORDINAL64` = the low 16 bits, name imports pass the
`IMAGE_IMPORT_BY_NAME` at `rawData[thunk]`. -/
def resolveThunk (host : Host) (h t : Nat) : Nat :=
  if t / 2 ^ 63 = 1 then host.getProcOrd h (t % 2 ^ 16) else host.getProcName h t

/-- The `while (*OFT != 0)` loop: read the thunk at `oft`, resolve it
(`GetProcAddress`; 0 fails the load), store into the IAT slot at `iat`, then
advance both by 8 (`*IAT++ = function; ++OFT;`). -/
def procThunks (host : Host) (b : Buf) (h : Nat) : Nat → Nat → Nat → IATStatus × List (Nat × Nat)
  | 0, _, _ => (.fuelOut, [])
  | fuel + 1, oft, iat =>
    let t := readB64 b oft
    if t = 0 then (.done, [])
    else
      let f := resolveThunk host h t
      if f = 0 then (.resolveFail, [])
      else
        let r := procThunks host b h fuel (oft + 8) (iat + 8)
        (r.1, (iat, f) :: r.2)

/-- The `while (importDirectory->Characteristics)` loop.  Descriptor layout:
`Characteristics`/`OriginalFirstThunk` (a union) at +0, `Name` at +12,
`FirstThunk` at +16, stride 20.  A descriptor is processed by `LoadLibraryA`
on its name (null fails), choosing the thunk table (`OriginalFirstThunk`,
falling back to `FirstThunk` when it is 0), resolving every thunk, and only
then `AddImportModule`. -/
def buildIATGo (host : Host) (b : Buf) (fuelT : Nat) : Nat → Nat → IATRes
  | 0, _ => ⟨.fuelOut, [], [], []⟩
  | fuelD + 1, desc =>
    let char := readB32 b desc
    if char = 0 then ⟨.done, [], [], []⟩
    else
      let h := host.loadLib (readB32 b (desc + 12))
      if h = 0 then ⟨.loadFail, [], [], []⟩
      else
        let oft := readB32 b desc
        let chosen := if oft = 0 then readB32 b (desc + 16) else oft
        let r := procThunks host b h fuelT chosen (readB32 b (desc + 16))
        match r.1 with
        | .done =>
          let rest := buildIATGo host b fuelT fuelD (desc + 20)
          ⟨rest.status, r.2 ++ rest.writes, h :: rest.recorded, h :: rest.loaded⟩
        | st => ⟨st, r.2, [], [h]⟩

/-- Embeds `ModuleLoader::BuildIAT`: nothing to do when `Module::ImportDirectory`
is null, otherwise walk the descriptor array at its RVA. -/
def buildIAT (host : Host) (m : Module) (b : Buf) (fuelD fuelT : Nat) : IATRes :=
  match m.fetchDataDirectory b 1 with
  | none => ⟨.done, [], [], []⟩
  | some rva => buildIATGo host b fuelT fuelD rva

/-- Apply the collected IAT stores to the region (`*IAT++ = function`). -/
def applyWrites (b : Buf) (ws : List (Nat × Nat)) : Buf :=
  ws.foldl (fun b w => writeB64 b w.1 w.2) b

/-! ## Phase 6 — base relocations (`ModuleLoader::RelocateBase`) -/

/-- One `IMAGE_BASE_RELOCATION` block: the page RVA and its trailing 16-bit
entries (as walked by the source: the entry list stops at the first zero
entry, and the block list stops at the first block whose `VirtualAddress`
is 0). -/
structure RelocBlock where
  va : Nat
  entries : List Nat
deriving DecidableEq, Repr

/-- The inner `while (*reloc)` read: collect the 16-bit entries at `off`
until a zero entry. -/
def readEntries (b : Buf) : Nat → Nat → List Nat
  | 0, _ => []
  | fuel + 1, off =>
    let e := readB16 b off
    if e = 0 then [] else e :: readEntries b fuel (off + 2)

/-- The outer `while (relocTable->VirtualAddress)` read: collect blocks,
advancing by each block's `SizeOfBlock` (at +4); entries start at +8. -/
def readBlocks (b : Buf) (fuelE : Nat) : Nat → Nat → List RelocBlock
  | 0, _ => []
  | fuel + 1, off =>
    let va := readB32 b off
    if va = 0 then []
    else ⟨va, readEntries b fuelE (off + 8)⟩ :: readBlocks b fuelE fuel (off + readB32 b (off + 4))

/-- Embeds `*reinterpret_cast<std::uint64_t*>(dest) += delta` — a 64-bit in-place
add, wrapping modulo `2 ^ 64` via the byte-wise store. -/
def incr64 (b : Buf) (a delta : Nat) : Buf := writeB64 b a (readB64 b a + delta)

/-- One relocation entry: type = `e >> 12`, offset = `e & 0xfff`; only
`IMAGE_REL_BASED_DIR64` (10) is handled, all other types fall through. -/
def applyEntry (va delta : Nat) (b : Buf) (e : Nat) : Buf :=
  if e / 4096 = 10 then incr64 b (va + e % 4096) delta else b

/-- Embeds `ModuleLoader::RelocateBase` over the decoded block list. -/
def relocateBase (b : Buf) (blocks : List RelocBlock) (delta : Nat) : Buf :=
  blocks.foldl (fun b blk => blk.entries.foldl (applyEntry blk.va delta) b) b

/-- The relocation step of `ModuleLoader::Load`: run only when `delta != 0`,
and only when `Module::RelocationDirectory()` (`DataDirectory[5]`) is
non-null.  The block list is decoded from the region once; relocation writes
that would overlap the relocation table itself are outside this model. -/
def relocStep (m : Module) (b : Buf) (delta fuelB fuelE : Nat) : Buf :=
  if delta ≠ 0 then
    match m.fetchDataDirectory b 5 with
    | none => b
    | some rva => relocateBase b (readBlocks b fuelE fuelB rva) delta
  else b

/-- The multiset of region offsets named by `DIR64` entries of a block list. -/
def dir64Targets (blocks : List RelocBlock) : List Nat :=
  (blocks.map (fun blk =>
    blk.entries.filterMap (fun e => if e / 4096 = 10 then some (blk.va + e % 4096) else none))).flatten

/-! ## Phase 7 — protections (`ModuleLoader::FinalizeSection`) -/

/-- The protection chosen from the `IMAGE_SCN_MEM_WRITE` (0x80000000) and
`IMAGE_SCN_MEM_EXECUTE` (0x20000000) characteristic bits, as in the source's
nested conditionals: `PAGE_EXECUTE_READWRITE` (0x40), `PAGE_READWRITE` (0x04),
`PAGE_EXECUTE_READ` (0x20), `PAGE_READONLY` (0x02). -/
def protOf (c : Nat) : Nat :=
  if c &&& 0x80000000 = 0x80000000 then
    if c &&& 0x20000000 = 0x20000000 then 0x40 else 0x04
  else
    if c &&& 0x20000000 = 0x20000000 then 0x20 else 0x02

/-- The per-section loop: `VirtualProtect(imageBase + VirtualAddress,
Misc.VirtualSize, newProtect, &old)`; the first failure returns `false`
immediately (later sections are not protected). -/
def finalizeGo (host : Host) (base : Nat) : List SectionHeader → Bool × List Ev
  | [] => (true, [])
  | s :: rest =>
    let p := protOf s.characteristics
    if host.protOk (base + s.virtualAddress) s.virtualSize p then
      let r := finalizeGo host base rest
      (r.1, Ev.vprotect (base + s.virtualAddress) s.virtualSize p :: r.2)
    else (false, [Ev.vprotect (base + s.virtualAddress) s.virtualSize p])

/-! ## The Loader pipeline (`ModuleLoader::Load`) -/

/-- Phase 2 — copy headers: `size = (byte*)sectionHeaders[0] - rawData.data()`,
one block write of the first `size` file bytes at offset 0. -/
def headerBytes (pe : PE) : Nat := (pe.sections.headD ⟨0, 0, 0, 0, 0, 0⟩).hdrOff

/-- Phase 2, both passes: the single block write of `headerBytes` bytes
followed by `bw << sectionHeader` for each section header (each a 40-byte
struct whose bytes are the file bytes at its own offset). -/
def phase2 (file : List Nat) (pe : PE) (bw : BinaryWriter) : BinaryWriter :=
  let bw1 := bw.writeSpan (file.take (headerBytes pe))
  pe.sections.foldl (fun b s => b.writeSpan ((file.drop s.hdrOff).take 40)) bw1

/-- Phase 3 — copy sections: `bw.Seek(sectionHeaders[0]->VirtualAddress)`,
then for each section `LoadSection` seeks to its `VirtualAddress` and writes
`rawData.subspan(PointerToRawData, SizeOfRawData)`. -/
def phase3 (file : List Nat) (pe : PE) (bw : BinaryWriter) : BinaryWriter :=
  let bw0 := bw.seek ((pe.sections.headD ⟨0, 0, 0, 0, 0, 0⟩).virtualAddress)
  pe.sections.foldl
    (fun b s => (b.seek s.virtualAddress).writeSpan ((file.drop s.pointerToRawData).take s.sizeOfRawData))
    bw0

/-- The region as staged by phases 2 and 3 over the zero-initialised
allocation of `SizeOfImage` bytes. -/
def stagedBW (file : List Nat) : BinaryWriter :=
  phase3 file (PE.parse file) (phase2 file (PE.parse file) ⟨fun _ => 0, (PE.parse file).sizeOfImage, 0⟩)

/-- Phase 4 — wrap and validate the staged region. -/
def loadModule (file : List Nat) (base : Nat) : Module × Buf :=
  Module.parse (stagedBW file).buf base (PE.parse file).sizeOfImage

/-- The relocation delta `mod.ImageBase - pe.ImageBase` as a wrapping 64-bit
subtraction; `mod.ImageBase` was overwritten with the allocation base by
`Module::Parse`. -/
def loadDelta (file : List Nat) (base : Nat) : Nat :=
  (base + 2 ^ 64 - (PE.parse file).imageBase) % 2 ^ 64

/-- Embeds `ModuleLoader::Load`, returning the loaded module (if any) and the trace
of host calls.  TLS callback dispatch (phase 8) executes guest code and is not
part of the host-call model.  Note the tail of every non-empty return path:
`return mod;` converts the local `Module` into the `std::optional` result via
the implicitly generated copy constructor (the user-declared destructor
suppresses the move constructor, and copy elision cannot apply across the
`Module` → `std::optional<Module>` conversion), after which the local
`Module`'s destructor runs — so `destroyEvents` of the local module are part
of `Load`'s own trace even on success. -/
structure LoadRes where
  result : Option Module
  region : Buf
  events : List Ev

def load (file : List Nat) (host : Host) (fuelD fuelT fuelB fuelE : Nat) : LoadRes :=
  let pe := PE.parse file
  if pe.ok = false then ⟨none, fun _ => 0, []⟩
  else
    match host.allocBase with
    | none => ⟨none, fun _ => 0, [Ev.alloc pe.sizeOfImage]⟩
    | some base =>
      let mp := loadModule file base
      let m := mp.1
      if m.ok = false then ⟨none, mp.2, [Ev.alloc pe.sizeOfImage] ++ destroyEvents m⟩
      else
        let iat := buildIAT host m mp.2 fuelD fuelT
        let m2 := { m with importModules := iat.recorded }
        if iat.status = .done then
          let b2 := applyWrites mp.2 iat.writes
          let b3 := relocStep m2 b2 (loadDelta file base) fuelB fuelE
          let fin := finalizeGo host base m2.sections
          if fin.1 then
            ⟨some m2, b3, [Ev.alloc pe.sizeOfImage] ++ fin.2 ++ destroyEvents m2⟩
          else
            ⟨none, b3, [Ev.alloc pe.sizeOfImage] ++ fin.2 ++ destroyEvents m2⟩
        else ⟨none, mp.2, [Ev.alloc pe.sizeOfImage] ++ destroyEvents m2⟩

/-- Two 8-byte windows at `a` and `t` do not overlap. -/
def disjoint8 (a t : Nat) : Prop := a + 8 ≤ t ∨ t + 8 ≤ a

instance (a t : Nat) : Decidable (disjoint8 a t) := by
  unfold disjoint8; infer_instance

/-- The relocation pass flattened to its `DIR64` increments. -/
def applyIncrs (b : Buf) (l : List Nat) (delta : Nat) : Buf :=
  l.foldl (fun b t => incr64 b t delta) b

/-! ## Concrete images and hosts used as witnesses -/

/-- A minimal well-formed AMD64 PE32+ image: `e_lfanew` = 64, one section (RVA 0x1000, raw data at file offset 368, 0x80 bytes, execute+read), preferred base 0x400000, `SizeOfImage` 0x3000, and one import descriptor (name table RVA 0x1040, one name import at RVA 0x1070, IAT at RVA 0x1050, DLL name at RVA 0x1060). -/
def cfOk : List Nat :=
  [77, 90, 0, 0, 0, 0, 0, 0, 0, 0, 0, 0, 0, 0, 0, 0, 0, 0, 0, 0, 0, 0, 0, 0,
  0, 0, 0, 0, 0, 0, 0, 0, 0, 0, 0, 0, 0, 0, 0, 0, 0, 0, 0, 0, 0, 0, 0, 0,
  0, 0, 0, 0, 0, 0, 0, 0, 0, 0, 0, 0, 64, 0, 0, 0, 80, 69, 0, 0, 100, 134, 1, 0,
  0, 0, 0, 0, 0, 0, 0, 0, 0, 0, 0, 0, 240, 0, 0, 0, 11, 2, 0, 0, 0, 0, 0, 0,
  0, 0, 0, 0, 0, 0, 0, 0, 0, 0, 0, 0, 0, 0, 0, 0, 0, 0, 64, 0, 0, 0, 0, 0,
  0, 0, 0, 0, 0, 0, 0, 0, 0, 0, 0, 0, 0, 0, 0, 0, 0, 0, 0, 0, 0, 0, 0, 0,
  0, 48, 0, 0, 0, 0, 0, 0, 0, 0, 0, 0, 0, 0, 0, 0, 0, 0, 0, 0, 0, 0, 0, 0,
  0, 0, 0, 0, 0, 0, 0, 0, 0, 0, 0, 0, 0, 0, 0, 0, 0, 0, 0, 0, 0, 0, 0, 0,
  0, 0, 0, 0, 0, 0, 0, 0, 0, 0, 0, 0, 0, 0, 0, 0, 0, 16, 0, 0, 40, 0, 0, 0,
  0, 0, 0, 0, 0, 0, 0, 0, 0, 0, 0, 0, 0, 0, 0, 0, 0, 0, 0, 0, 0, 0, 0, 0,
  0, 0, 0, 0, 0, 0, 0, 0, 0, 0, 0, 0, 0, 0, 0, 0, 0, 0, 0, 0, 0, 0, 0, 0,
  0, 0, 0, 0, 0, 0, 0, 0, 0, 0, 0, 0, 0, 0, 0, 0, 0, 0, 0, 0, 0, 0, 0, 0,
  0, 0, 0, 0, 0, 0, 0, 0, 0, 0, 0, 0, 0, 0, 0, 0, 0, 0, 0, 0, 0, 0, 0, 0,
  0, 0, 0, 0, 0, 0, 0, 0, 0, 0, 0, 0, 0, 0, 0, 0, 46, 100, 97, 116, 97, 0, 0, 0,
  0, 2, 0, 0, 0, 16, 0, 0, 128, 0, 0, 0, 112, 1, 0, 0, 0, 0, 0, 0, 0, 0, 0, 0,
  0, 0, 0, 0, 0, 0, 0, 96, 64, 16, 0, 0, 0, 0, 0, 0, 0, 0, 0, 0, 96, 16, 0, 0,
  80, 16, 0, 0, 0, 0, 0, 0, 0, 0, 0, 0, 0, 0, 0, 0, 0, 0, 0, 0, 0, 0, 0, 0,
  0, 0, 0, 0, 0, 0, 0, 0, 0, 0, 0, 0, 0, 0, 0, 0, 0, 0, 0, 0, 0, 0, 0, 0,
  112, 16, 0, 0, 0, 0, 0, 0, 0, 0, 0, 0, 0, 0, 0, 0, 112, 16, 0, 0, 0, 0, 0, 0,
  0, 0, 0, 0, 0, 0, 0, 0, 102, 111, 111, 46, 100, 108, 108, 0, 0, 0, 0, 0, 0, 0, 0, 0,
  0, 0, 98, 97, 114, 0, 0, 0, 0, 0, 0, 0, 0, 0, 0, 0]

/-- Variant of `cfOk` with the DOS magic overwritten by `XX`. -/
def cfBadMagic : List Nat :=
  [88, 88, 0, 0, 0, 0, 0, 0, 0, 0, 0, 0, 0, 0, 0, 0, 0, 0, 0, 0, 0, 0, 0, 0,
  0, 0, 0, 0, 0, 0, 0, 0, 0, 0, 0, 0, 0, 0, 0, 0, 0, 0, 0, 0, 0, 0, 0, 0,
  0, 0, 0, 0, 0, 0, 0, 0, 0, 0, 0, 0, 64, 0, 0, 0, 80, 69, 0, 0, 100, 134, 1, 0,
  0, 0, 0, 0, 0, 0, 0, 0, 0, 0, 0, 0, 240, 0, 0, 0, 11, 2, 0, 0, 0, 0, 0, 0,
  0, 0, 0, 0, 0, 0, 0, 0, 0, 0, 0, 0, 0, 0, 0, 0, 0, 0, 64, 0, 0, 0, 0, 0,
  0, 0, 0, 0, 0, 0, 0, 0, 0, 0, 0, 0, 0, 0, 0, 0, 0, 0, 0, 0, 0, 0, 0, 0,
  0, 48, 0, 0, 0, 0, 0, 0, 0, 0, 0, 0, 0, 0, 0, 0, 0, 0, 0, 0, 0, 0, 0, 0,
  0, 0, 0, 0, 0, 0, 0, 0, 0, 0, 0, 0, 0, 0, 0, 0, 0, 0, 0, 0, 0, 0, 0, 0,
  0, 0, 0, 0, 0, 0, 0, 0, 0, 0, 0, 0, 0, 0, 0, 0, 0, 16, 0, 0, 40, 0, 0, 0,
  0, 0, 0, 0, 0, 0, 0, 0, 0, 0, 0, 0, 0, 0, 0, 0, 0, 0, 0, 0, 0, 0, 0, 0,
  0, 0, 0, 0, 0, 0, 0, 0, 0, 0, 0, 0, 0, 0, 0, 0, 0, 0, 0, 0, 0, 0, 0, 0,
  0, 0, 0, 0, 0, 0, 0, 0, 0, 0, 0, 0, 0, 0, 0, 0, 0, 0, 0, 0, 0, 0, 0, 0,
  0, 0, 0, 0, 0, 0, 0, 0, 0, 0, 0, 0, 0, 0, 0, 0, 0, 0, 0, 0, 0, 0, 0, 0,
  0, 0, 0, 0, 0, 0, 0, 0, 0, 0, 0, 0, 0, 0, 0, 0, 46, 100, 97, 116, 97, 0, 0, 0,
  0, 2, 0, 0, 0, 16, 0, 0, 128, 0, 0, 0, 112, 1, 0, 0, 0, 0, 0, 0, 0, 0, 0, 0,
  0, 0, 0, 0, 0, 0, 0, 96, 64, 16, 0, 0, 0, 0, 0, 0, 0, 0, 0, 0, 96, 16, 0, 0,
  80, 16, 0, 0, 0, 0, 0, 0, 0, 0, 0, 0, 0, 0, 0, 0, 0, 0, 0, 0, 0, 0, 0, 0,
  0, 0, 0, 0, 0, 0, 0, 0, 0, 0, 0, 0, 0, 0, 0, 0, 0, 0, 0, 0, 0, 0, 0, 0,
  112, 16, 0, 0, 0, 0, 0, 0, 0, 0, 0, 0, 0, 0, 0, 0, 112, 16, 0, 0, 0, 0, 0, 0,
  0, 0, 0, 0, 0, 0, 0, 0, 102, 111, 111, 46, 100, 108, 108, 0, 0, 0, 0, 0, 0, 0, 0, 0,
  0, 0, 98, 97, 114, 0, 0, 0, 0, 0, 0, 0, 0, 0, 0, 0]

/-- Variant of `cfOk` with `FileHeader.Machine` set to `IMAGE_FILE_MACHINE_I386` (0x14C). -/
def cfI386 : List Nat :=
  [77, 90, 0, 0, 0, 0, 0, 0, 0, 0, 0, 0, 0, 0, 0, 0, 0, 0, 0, 0, 0, 0, 0, 0,
  0, 0, 0, 0, 0, 0, 0, 0, 0, 0, 0, 0, 0, 0, 0, 0, 0, 0, 0, 0, 0, 0, 0, 0,
  0, 0, 0, 0, 0, 0, 0, 0, 0, 0, 0, 0, 64, 0, 0, 0, 80, 69, 0, 0, 76, 1, 1, 0,
  0, 0, 0, 0, 0, 0, 0, 0, 0, 0, 0, 0, 240, 0, 0, 0, 11, 2, 0, 0, 0, 0, 0, 0,
  0, 0, 0, 0, 0, 0, 0, 0, 0, 0, 0, 0, 0, 0, 0, 0, 0, 0, 64, 0, 0, 0, 0, 0,
  0, 0, 0, 0, 0, 0, 0, 0, 0, 0, 0, 0, 0, 0, 0, 0, 0, 0, 0, 0, 0, 0, 0, 0,
  0, 48, 0, 0, 0, 0, 0, 0, 0, 0, 0, 0, 0, 0, 0, 0, 0, 0, 0, 0, 0, 0, 0, 0,
  0, 0, 0, 0, 0, 0, 0, 0, 0, 0, 0, 0, 0, 0, 0, 0, 0, 0, 0, 0, 0, 0, 0, 0,
  0, 0, 0, 0, 0, 0, 0, 0, 0, 0, 0, 0, 0, 0, 0, 0, 0, 16, 0, 0, 40, 0, 0, 0,
  0, 0, 0, 0, 0, 0, 0, 0, 0, 0, 0, 0, 0, 0, 0, 0, 0, 0, 0, 0, 0, 0, 0, 0,
  0, 0, 0, 0, 0, 0, 0, 0, 0, 0, 0, 0, 0, 0, 0, 0, 0, 0, 0, 0, 0, 0, 0, 0,
  0, 0, 0, 0, 0, 0, 0, 0, 0, 0, 0, 0, 0, 0, 0, 0, 0, 0, 0, 0, 0, 0, 0, 0,
  0, 0, 0, 0, 0, 0, 0, 0, 0, 0, 0, 0, 0, 0, 0, 0, 0, 0, 0, 0, 0, 0, 0, 0,
  0, 0, 0, 0, 0, 0, 0, 0, 0, 0, 0, 0, 0, 0, 0, 0, 46, 100, 97, 116, 97, 0, 0, 0,
  0, 2, 0, 0, 0, 16, 0, 0, 128, 0, 0, 0, 112, 1, 0, 0, 0, 0, 0, 0, 0, 0, 0, 0,
  0, 0, 0, 0, 0, 0, 0, 96, 64, 16, 0, 0, 0, 0, 0, 0, 0, 0, 0, 0, 96, 16, 0, 0,
  80, 16, 0, 0, 0, 0, 0, 0, 0, 0, 0, 0, 0, 0, 0, 0, 0, 0, 0, 0, 0, 0, 0, 0,
  0, 0, 0, 0, 0, 0, 0, 0, 0, 0, 0, 0, 0, 0, 0, 0, 0, 0, 0, 0, 0, 0, 0, 0,
  112, 16, 0, 0, 0, 0, 0, 0, 0, 0, 0, 0, 0, 0, 0, 0, 112, 16, 0, 0, 0, 0, 0, 0,
  0, 0, 0, 0, 0, 0, 0, 0, 102, 111, 111, 46, 100, 108, 108, 0, 0, 0, 0, 0, 0, 0, 0, 0,
  0, 0, 98, 97, 114, 0, 0, 0, 0, 0, 0, 0, 0, 0, 0, 0]

/-- Variant of `cfOk` with the section's `SizeOfRawData` set to 0xFFFF, so that `PointerToRawData + SizeOfRawData` = 65903 exceeds the 496-byte file. -/
def cfOob : List Nat :=
  [77, 90, 0, 0, 0, 0, 0, 0, 0, 0, 0, 0, 0, 0, 0, 0, 0, 0, 0, 0, 0, 0, 0, 0,
  0, 0, 0, 0, 0, 0, 0, 0, 0, 0, 0, 0, 0, 0, 0, 0, 0, 0, 0, 0, 0, 0, 0, 0,
  0, 0, 0, 0, 0, 0, 0, 0, 0, 0, 0, 0, 64, 0, 0, 0, 80, 69, 0, 0, 100, 134, 1, 0,
  0, 0, 0, 0, 0, 0, 0, 0, 0, 0, 0, 0, 240, 0, 0, 0, 11, 2, 0, 0, 0, 0, 0, 0,
  0, 0, 0, 0, 0, 0, 0, 0, 0, 0, 0, 0, 0, 0, 0, 0, 0, 0, 64, 0, 0, 0, 0, 0,
  0, 0, 0, 0, 0, 0, 0, 0, 0, 0, 0, 0, 0, 0, 0, 0, 0, 0, 0, 0, 0, 0, 0, 0,
  0, 48, 0, 0, 0, 0, 0, 0, 0, 0, 0, 0, 0, 0, 0, 0, 0, 0, 0, 0, 0, 0, 0, 0,
  0, 0, 0, 0, 0, 0, 0, 0, 0, 0, 0, 0, 0, 0, 0, 0, 0, 0, 0, 0, 0, 0, 0, 0,
  0, 0, 0, 0, 0, 0, 0, 0, 0, 0, 0, 0, 0, 0, 0, 0, 0, 16, 0, 0, 40, 0, 0, 0,
  0, 0, 0, 0, 0, 0, 0, 0, 0, 0, 0, 0, 0, 0, 0, 0, 0, 0, 0, 0, 0, 0, 0, 0,
  0, 0, 0, 0, 0, 0, 0, 0, 0, 0, 0, 0, 0, 0, 0, 0, 0, 0, 0, 0, 0, 0, 0, 0,
  0, 0, 0, 0, 0, 0, 0, 0, 0, 0, 0, 0, 0, 0, 0, 0, 0, 0, 0, 0, 0, 0, 0, 0,
  0, 0, 0, 0, 0, 0, 0, 0, 0, 0, 0, 0, 0, 0, 0, 0, 0, 0, 0, 0, 0, 0, 0, 0,
  0, 0, 0, 0, 0, 0, 0, 0, 0, 0, 0, 0, 0, 0, 0, 0, 46, 100, 97, 116, 97, 0, 0, 0,
  0, 2, 0, 0, 0, 16, 0, 0, 255, 255, 0, 0, 112, 1, 0, 0, 0, 0, 0, 0, 0, 0, 0, 0,
  0, 0, 0, 0, 0, 0, 0, 96, 64, 16, 0, 0, 0, 0, 0, 0, 0, 0, 0, 0, 96, 16, 0, 0,
  80, 16, 0, 0, 0, 0, 0, 0, 0, 0, 0, 0, 0, 0, 0, 0, 0, 0, 0, 0, 0, 0, 0, 0,
  0, 0, 0, 0, 0, 0, 0, 0, 0, 0, 0, 0, 0, 0, 0, 0, 0, 0, 0, 0, 0, 0, 0, 0,
  112, 16, 0, 0, 0, 0, 0, 0, 0, 0, 0, 0, 0, 0, 0, 0, 112, 16, 0, 0, 0, 0, 0, 0,
  0, 0, 0, 0, 0, 0, 0, 0, 102, 111, 111, 46, 100, 108, 108, 0, 0, 0, 0, 0, 0, 0, 0, 0,
  0, 0, 98, 97, 114, 0, 0, 0, 0, 0, 0, 0, 0, 0, 0, 0]

/-- Variant of `cfOk` with the import data directory RVA set to 0x5000, which no section covers (the only section spans RVAs [0x1000, 0x1200)). -/
def cfUncovered : List Nat :=
  [77, 90, 0, 0, 0, 0, 0, 0, 0, 0, 0, 0, 0, 0, 0, 0, 0, 0, 0, 0, 0, 0, 0, 0,
  0, 0, 0, 0, 0, 0, 0, 0, 0, 0, 0, 0, 0, 0, 0, 0, 0, 0, 0, 0, 0, 0, 0, 0,
  0, 0, 0, 0, 0, 0, 0, 0, 0, 0, 0, 0, 64, 0, 0, 0, 80, 69, 0, 0, 100, 134, 1, 0,
  0, 0, 0, 0, 0, 0, 0, 0, 0, 0, 0, 0, 240, 0, 0, 0, 11, 2, 0, 0, 0, 0, 0, 0,
  0, 0, 0, 0, 0, 0, 0, 0, 0, 0, 0, 0, 0, 0, 0, 0, 0, 0, 64, 0, 0, 0, 0, 0,
  0, 0, 0, 0, 0, 0, 0, 0, 0, 0, 0, 0, 0, 0, 0, 0, 0, 0, 0, 0, 0, 0, 0, 0,
  0, 48, 0, 0, 0, 0, 0, 0, 0, 0, 0, 0, 0, 0, 0, 0, 0, 0, 0, 0, 0, 0, 0, 0,
  0, 0, 0, 0, 0, 0, 0, 0, 0, 0, 0, 0, 0, 0, 0, 0, 0, 0, 0, 0, 0, 0, 0, 0,
  0, 0, 0, 0, 0, 0, 0, 0, 0, 0, 0, 0, 0, 0, 0, 0, 0, 80, 0, 0, 40, 0, 0, 0,
  0, 0, 0, 0, 0, 0, 0, 0, 0, 0, 0, 0, 0, 0, 0, 0, 0, 0, 0, 0, 0, 0, 0, 0,
  0, 0, 0, 0, 0, 0, 0, 0, 0, 0, 0, 0, 0, 0, 0, 0, 0, 0, 0, 0, 0, 0, 0, 0,
  0, 0, 0, 0, 0, 0, 0, 0, 0, 0, 0, 0, 0, 0, 0, 0, 0, 0, 0, 0, 0, 0, 0, 0,
  0, 0, 0, 0, 0, 0, 0, 0, 0, 0, 0, 0, 0, 0, 0, 0, 0, 0, 0, 0, 0, 0, 0, 0,
  0, 0, 0, 0, 0, 0, 0, 0, 0, 0, 0, 0, 0, 0, 0, 0, 46, 100, 97, 116, 97, 0, 0, 0,
  0, 2, 0, 0, 0, 16, 0, 0, 128, 0, 0, 0, 112, 1, 0, 0, 0, 0, 0, 0, 0, 0, 0, 0,
  0, 0, 0, 0, 0, 0, 0, 96, 64, 16, 0, 0, 0, 0, 0, 0, 0, 0, 0, 0, 96, 16, 0, 0,
  80, 16, 0, 0, 0, 0, 0, 0, 0, 0, 0, 0, 0, 0, 0, 0, 0, 0, 0, 0, 0, 0, 0, 0,
  0, 0, 0, 0, 0, 0, 0, 0, 0, 0, 0, 0, 0, 0, 0, 0, 0, 0, 0, 0, 0, 0, 0, 0,
  112, 16, 0, 0, 0, 0, 0, 0, 0, 0, 0, 0, 0, 0, 0, 0, 112, 16, 0, 0, 0, 0, 0, 0,
  0, 0, 0, 0, 0, 0, 0, 0, 102, 111, 111, 46, 100, 108, 108, 0, 0, 0, 0, 0, 0, 0, 0, 0,
  0, 0, 98, 97, 114, 0, 0, 0, 0, 0, 0, 0, 0, 0, 0, 0]

/-- A host that satisfies `cfOk` completely: allocation at the preferred base
0x400000 (so the relocation delta is 0), `LoadLibraryA` of the DLL name at
RVA 0x1060 yields handle 7, the name import at RVA 0x1070 resolves to 0x9999,
and every `VirtualProtect` succeeds. -/
def hostOk : Host :=
  ⟨some 0x400000,
   fun n => if n = 0x1060 then 7 else 0,
   fun _ _ => 0,
   fun h t => if h = 7 ∧ t = 0x1070 then 0x9999 else 0,
   fun _ _ _ => true⟩

/-- Variant of `hostOk` with a `VirtualProtect` that always fails. -/
def hostProtFail : Host :=
  ⟨some 0x400000,
   fun n => if n = 0x1060 then 7 else 0,
   fun _ _ => 0,
   fun h t => if h = 7 ∧ t = 0x1070 then 0x9999 else 0,
   fun _ _ _ => false⟩

/-- Variant of `hostOk` with a `GetProcAddress` that always fails (returns null). -/
def hostResolveFail : Host :=
  ⟨some 0x400000,
   fun n => if n = 0x1060 then 7 else 0,
   fun _ _ => 0,
   fun _ _ => 0,
   fun _ _ _ => true⟩

/-! ## Byte-buffer frame lemmas -/

theorem store_self (b : Buf) (i v : Nat) : store b i v i = v := by simp [store]

theorem store_other (b : Buf) (i v j : Nat) (h : j ≠ i) : store b i v j = b j := by
  simp [store, h]

/-- A `k`-byte write changes no byte outside `[off, off + k)`. -/
theorem writeB_outside (k : Nat) : ∀ (b : Buf) (off v j : Nat),
    j < off ∨ off + k ≤ j → writeB b k off v j = b j := by
  induction k with
  | zero => intro b off v j _; rfl
  | succ k ih =>
    intro b off v j h
    show writeB (store b off (v % 256)) k (off + 1) (v / 256) j = b j
    rw [ih _ _ _ _ (by omega)]
    exact store_other _ _ _ _ (by omega)

/-- A `k`-byte read depends only on the bytes `[off, off + k)`. -/
theorem readB_congr (k : Nat) : ∀ (b1 b2 : Buf) (off : Nat),
    (∀ j, off ≤ j → j < off + k → b1 j = b2 j) → readB b1 k off = readB b2 k off := by
  induction k with
  | zero => intro b1 b2 off _; rfl
  | succ k ih =>
    intro b1 b2 off h
    show b1 off % 256 + 256 * readB b1 k (off + 1) = b2 off % 256 + 256 * readB b2 k (off + 1)
    rw [h off (by omega) (by omega), ih b1 b2 (off + 1) (fun j h1 h2 => h j (by omega) (by omega))]

/-- A `k`-byte read is below `2 ^ (8 * k)`. -/
theorem readB_lt (k : Nat) : ∀ (b : Buf) (off : Nat), readB b k off < 2 ^ (8 * k) := by
  induction k with
  | zero => intro b off; simp [readB]
  | succ k ih =>
    intro b off
    have h1 : b off % 256 < 256 := Nat.mod_lt _ (by omega)
    have h2 := ih b (off + 1)
    have h3 : (2 : Nat) ^ (8 * (k + 1)) = 256 * 2 ^ (8 * k) := by
      rw [Nat.mul_add, Nat.pow_add]; ring
    show b off % 256 + 256 * readB b k (off + 1) < 2 ^ (8 * (k + 1))
    rw [h3]; omega

/-- Reading back a `k`-byte write returns the value modulo `2 ^ (8 * k)`. -/
theorem readB_writeB (k : Nat) : ∀ (b : Buf) (off v : Nat),
    readB (writeB b k off v) k off = v % 2 ^ (8 * k) := by
  induction k with
  | zero => intro b off v; simp [readB, writeB]; omega
  | succ k ih =>
    intro b off v
    show readB (writeB (store b off (v % 256)) k (off + 1) (v / 256)) (k + 1) off = _
    have hfst : writeB (store b off (v % 256)) k (off + 1) (v / 256) off = v % 256 := by
      rw [writeB_outside k _ _ _ _ (by omega)]; exact store_self _ _ _
    have h3 : (2 : Nat) ^ (8 * (k + 1)) = 256 * 2 ^ (8 * k) := by
      rw [Nat.mul_add, Nat.pow_add]; ring
    show writeB (store b off (v % 256)) k (off + 1) (v / 256) off % 256 +
        256 * readB (writeB (store b off (v % 256)) k (off + 1) (v / 256)) k (off + 1) =
        v % 2 ^ (8 * (k + 1))
    rw [hfst, ih, h3, Nat.mod_mul]
    omega

theorem readB64_lt (b : Buf) (off : Nat) : readB64 b off < 2 ^ 64 := by
  simpa using readB_lt 8 b off

theorem readB64_congr (b1 b2 : Buf) (off : Nat)
    (h : ∀ j, off ≤ j → j < off + 8 → b1 j = b2 j) : readB64 b1 off = readB64 b2 off :=
  readB_congr 8 b1 b2 off h

theorem writeB64_outside (b : Buf) (off v j : Nat) (h : j < off ∨ off + 8 ≤ j) :
    writeB64 b off v j = b j :=
  writeB_outside 8 b off v j h

theorem readB64_writeB64 (b : Buf) (off v : Nat) :
    readB64 (writeB64 b off v) off = v % 2 ^ 64 := by
  simpa using readB_writeB 8 b off v

/-- A DIR64 increment at `t` does not change a 64-bit read at a disjoint `a`. -/
theorem readB64_incr64_disjoint (b : Buf) (a t delta : Nat) (h : disjoint8 a t) :
    readB64 (incr64 b t delta) a = readB64 b a := by
  apply readB64_congr
  intro j h1 h2
  exact writeB64_outside _ _ _ _ (by rcases h with h | h <;> omega)

/-- A DIR64 increment at `a` adds `delta` modulo `2 ^ 64`. -/
theorem readB64_incr64_self (b : Buf) (a delta : Nat) :
    readB64 (incr64 b a delta) a = (readB64 b a + delta) % 2 ^ 64 :=
  readB64_writeB64 b a (readB64 b a + delta)

/-! ## Phase 6 lemmas (relocation) -/

theorem applyIncrs_preserve (l : List Nat) : ∀ (b : Buf) (a delta : Nat),
    (∀ t ∈ l, disjoint8 a t) → readB64 (applyIncrs b l delta) a = readB64 b a := by
  induction l with
  | nil => intro b a delta _; rfl
  | cons t rest ih =>
    intro b a delta h
    show readB64 (applyIncrs (incr64 b t delta) rest delta) a = _
    rw [ih _ _ _ (fun x hx => h x (List.mem_cons_of_mem _ hx)),
        readB64_incr64_disjoint _ _ _ _ (h t (List.mem_cons_self _ _))]

/-- If `a` is named exactly once among the increments, and every other named
offset is window-disjoint from `a`, the run of increments adds `delta` to the
64-bit value at `a` exactly once. -/
theorem applyIncrs_once (l : List Nat) : ∀ (b : Buf) (a delta : Nat),
    l.count a = 1 → (∀ t ∈ l, t ≠ a → disjoint8 a t) →
    readB64 (applyIncrs b l delta) a = (readB64 b a + delta) % 2 ^ 64 := by
  induction l with
  | nil => intro b a delta h _; simp at h
  | cons t rest ih =>
    intro b a delta hc hd
    by_cases ht : t = a
    · subst ht
      have hnot : t ∉ rest := by
        rw [List.count_cons_self] at hc
        exact List.count_eq_zero.mp (by omega)
      show readB64 (applyIncrs (incr64 b t delta) rest delta) t = _
      rw [applyIncrs_preserve rest _ _ _
            (fun x hx => hd x (List.mem_cons_of_mem _ hx)
              (fun he => hnot (he ▸ hx))),
          readB64_incr64_self]
    · have hc2 : rest.count a = 1 := by
        rw [List.count_cons_of_ne (fun he => ht he.symm)] at hc
        exact hc
      show readB64 (applyIncrs (incr64 b t delta) rest delta) a = _
      rw [ih _ _ _ hc2 (fun x hx hne => hd x (List.mem_cons_of_mem _ hx) hne),
          readB64_incr64_disjoint _ _ _ _ (hd t (List.mem_cons_self _ _) ht)]

theorem entriesFold_eq (va delta : Nat) (entries : List Nat) : ∀ b : Buf,
    entries.foldl (applyEntry va delta) b =
      applyIncrs b
        (entries.filterMap (fun e => if e / 4096 = 10 then some (va + e % 4096) else none))
        delta := by
  induction entries with
  | nil => intro b; rfl
  | cons e rest ih =>
    intro b
    show rest.foldl (applyEntry va delta) (applyEntry va delta b e) = _
    rw [List.filterMap_cons]
    by_cases he : e / 4096 = 10
    · rw [if_pos he]
      show _ = applyIncrs (incr64 b (va + e % 4096) delta) _ delta
      rw [← ih]
      simp [applyEntry, he]
    · rw [if_neg he]
      show _ = applyIncrs b _ delta
      rw [← ih]
      simp [applyEntry, he]

/-- The pass `RelocateBase` is the sequence of its DIR64 increments. -/
theorem relocateBase_eq (blocks : List RelocBlock) : ∀ (b : Buf) (delta : Nat),
    relocateBase b blocks delta = applyIncrs b (dir64Targets blocks) delta := by
  induction blocks with
  | nil => intro b delta; rfl
  | cons blk rest ih =>
    intro b delta
    show relocateBase (blk.entries.foldl (applyEntry blk.va delta) b) rest delta = _
    rw [ih, entriesFold_eq]
    show _ = applyIncrs b (dir64Targets (blk :: rest)) delta
    have : dir64Targets (blk :: rest) =
        blk.entries.filterMap
          (fun e => if e / 4096 = 10 then some (blk.va + e % 4096) else none) ++
          dir64Targets rest := by
      simp [dir64Targets]
    rw [this]
    exact (List.foldl_append _ _ _ _).symm

/-- C5: for every 64-bit location named by a DIR64 relocation entry (page RVA
plus 12-bit offset) — named exactly once, its window disjoint from every other
DIR64 target — the relocated value equals the previous value plus `delta`
modulo `2 ^ 64`, the increment being applied exactly once; and when
`delta = 0` the relocation step of `Load` leaves the region untouched, so
relocation targets keep their on-disk values. -/
theorem c5_dir64_applied_exactly_once (b : Buf) (blocks : List RelocBlock)
    (delta a : Nat) (m : Module) (fuelB fuelE : Nat)
    (h1 : (dir64Targets blocks).count a = 1)
    (h2 : ∀ t ∈ dir64Targets blocks, t ≠ a → disjoint8 a t) :
    readB64 (relocateBase b blocks delta) a = (readB64 b a + delta) % 2 ^ 64 ∧
    relocStep m b 0 fuelB fuelE = b := by
  constructor
  · rw [relocateBase_eq]
    exact applyIncrs_once _ _ _ _ h1 h2
  · simp [relocStep]

/-- Witness for C5: a single block at page RVA 0x2000 with one DIR64 entry of
offset 0; relocating the all-zero region by `delta = 5` makes the 64-bit read
at 0x2000 equal 5. -/
theorem c5_witness :
    (dir64Targets [⟨8192, [40960]⟩]).count 8192 = 1 ∧
    readB64 (relocateBase (fun _ => 0) [⟨8192, [40960]⟩] 5) 8192 =
      (readB64 (fun _ => 0) 8192 + 5) % 2 ^ 64 ∧
    relocStep ⟨0, 0, true, .Success, 0, [], []⟩ (fun _ => 0) 0 1 1 = fun _ => 0 :=
  ⟨by decide,
    c5_dir64_applied_exactly_once (fun _ => 0) [⟨8192, [40960]⟩] 5 8192
      ⟨0, 0, true, .Success, 0, [], []⟩ 1 1 (by decide) (by decide)⟩

/-! ## C9 — ByteCursor write contract -/

/-- C9: for every `BinaryWriter` state and byte sequence `data`: when
`pos + len(data) ≤ size` the write copies `data` to `[pos, pos + len)`,
advances `pos` by `len`, and leaves every byte outside that range (and the
size) unchanged; otherwise the write is a complete no-op on the state, and no
error is surfaced (the result is the unchanged writer). -/
theorem c9_bytecursor_write (bw : BinaryWriter) (data : List Nat) :
    (bw.pos + data.length ≤ bw.size →
      (bw.writeSpan data).pos = bw.pos + data.length ∧
      (bw.writeSpan data).size = bw.size ∧
      (∀ i, i < data.length → (bw.writeSpan data).buf (bw.pos + i) = byteAt data i) ∧
      (∀ j, j < bw.pos ∨ bw.pos + data.length ≤ j → (bw.writeSpan data).buf j = bw.buf j)) ∧
    (¬ bw.pos + data.length ≤ bw.size → bw.writeSpan data = bw) := by
  constructor
  · intro h
    simp only [BinaryWriter.writeSpan, if_pos h]
    refine ⟨by trivial, by trivial, ?_, ?_⟩
    · intro i hi
      simp only [copyList]
      rw [if_pos ⟨by omega, by omega⟩]
      congr 1
      omega
    · intro j hj
      simp only [copyList]
      rw [if_neg (by omega)]
  · intro h
    simp only [BinaryWriter.writeSpan, if_neg h]

/-- Witness for C9: an in-bounds write of two bytes at position 1 of a
four-byte cursor advances to 3; an out-of-bounds write at position 3 leaves
the cursor untouched. -/
theorem c9_witness :
    ((1 + ([7, 8] : List Nat).length ≤ 4 ∧
        ((⟨fun _ => 0, 4, 1⟩ : BinaryWriter).writeSpan [7, 8]).pos =
          1 + ([7, 8] : List Nat).length) ∧
      ¬ 3 + ([7, 8] : List Nat).length ≤ 4 ∧
        (⟨fun _ => 0, 4, 3⟩ : BinaryWriter).writeSpan [7, 8] = ⟨fun _ => 0, 4, 3⟩) :=
  ⟨⟨by decide, ((c9_bytecursor_write ⟨fun _ => 0, 4, 1⟩ [7, 8]).1 (by decide)).1⟩,
    by decide, (c9_bytecursor_write ⟨fun _ => 0, 4, 3⟩ [7, 8]).2 (by decide)⟩

/-! ## C10 — import directory with an uncovered RVA -/

/-- C10: if the import data directory has non-zero `Size` but its
`VirtualAddress` is covered by no section, `PE::ImportDirectory` does not
return null: `Rva2Raw` returns 0 for the uncovered RVA, so the returned
pointer is `_data.data() + 0` — file offset 0, the DOS header. -/
theorem c10_import_directory_uncovered (pe : PE)
    (h1 : pe.dirSize 1 ≠ 0)
    (h2 : ∀ s ∈ pe.sections,
      ¬(s.virtualAddress ≤ pe.dirVA 1 ∧ pe.dirVA 1 < s.virtualAddress + s.virtualSize)) :
    pe.importDirectoryOff = some 0 := by
  unfold PE.importDirectoryOff
  rw [if_neg h1]
  unfold PE.rva2Raw
  have hfind : pe.sections.find? (fun s =>
      decide (s.virtualAddress ≤ pe.dirVA 1 ∧ pe.dirVA 1 < s.virtualAddress + s.virtualSize)) =
      none := by
    apply List.find?_eq_none.mpr
    intro x hx
    simpa using h2 x hx
  rw [hfind]

/-- Witness for C10: `cfUncovered` places the import directory at RVA 0x5000,
outside its only section `[0x1000, 0x1200)`; `ImportDirectory` yields file
offset 0. -/
theorem c10_witness :
    (PE.parse cfUncovered).dirSize 1 ≠ 0 ∧
    (PE.parse cfUncovered).importDirectoryOff = some 0 :=
  ⟨by decide,
    c10_import_directory_uncovered (PE.parse cfUncovered) (by decide) (by decide)⟩

/-! ## C8 — the two surfaced error kinds, and the `ok` gate of `Load` -/

/-- C8: a bad DOS magic or malformed `e_lfanew` yields `InvalidPeFormat`; a
bad NT signature yields `InvalidPeFormat`; a non-AMD64 machine yields
`NotSupportedMachine`; in each case `ok` is false; and `Load` on a parser
whose `ok` is false returns empty with no host call at all (in particular no
allocation). -/
theorem c8_error_kinds :
    (∀ bs : List Nat, readLE16 bs 0 ≠ 0x5A4D ∨ readLE32 bs 60 < 64 →
      (PE.parse bs).ok = false ∧ (PE.parse bs).error = .InvalidPeFormat) ∧
    (∀ bs : List Nat, readLE16 bs 0 = 0x5A4D → ¬ readLE32 bs 60 < 64 →
      readLE32 bs (readLE32 bs 60) ≠ 0x4550 →
      (PE.parse bs).ok = false ∧ (PE.parse bs).error = .InvalidPeFormat) ∧
    (∀ bs : List Nat, readLE16 bs 0 = 0x5A4D → ¬ readLE32 bs 60 < 64 →
      readLE32 bs (readLE32 bs 60) = 0x4550 →
      readLE16 bs (readLE32 bs 60 + 4) ≠ 0x8664 →
      (PE.parse bs).ok = false ∧ (PE.parse bs).error = .NotSupportedMachine) ∧
    (∀ (file : List Nat) (host : Host) (fuelD fuelT fuelB fuelE : Nat),
      (PE.parse file).ok = false →
      (load file host fuelD fuelT fuelB fuelE).result = none ∧
      (load file host fuelD fuelT fuelB fuelE).events = []) := by
  refine ⟨?_, ?_, ?_, ?_⟩
  · intro bs h
    simp only [PE.parse]
    rw [if_pos h]
    exact ⟨rfl, rfl⟩
  · intro bs h1 h2 h3
    simp only [PE.parse]
    rw [if_neg (by tauto), if_pos h3]
    exact ⟨rfl, rfl⟩
  · intro bs h1 h2 h3 h4
    simp only [PE.parse]
    rw [if_neg (by tauto), if_neg (by simpa using h3), if_pos h4]
    exact ⟨rfl, rfl⟩
  · intro file host fuelD fuelT fuelB fuelE h
    simp only [load]
    rw [if_pos h]
    exact ⟨rfl, rfl⟩

/-- Witness for C8: `cfBadMagic` (DOS magic `XX`) is rejected as
`InvalidPeFormat` and `Load` returns empty without allocating; `cfI386`
(machine 0x14C) is rejected as `NotSupportedMachine`. -/
theorem c8_witness :
    ((readLE16 cfBadMagic 0 ≠ 0x5A4D ∨ readLE32 cfBadMagic 60 < 64) ∧
      (PE.parse cfBadMagic).ok = false ∧
      (PE.parse cfBadMagic).error = .InvalidPeFormat) ∧
    (readLE16 cfI386 (readLE32 cfI386 60 + 4) ≠ 0x8664 ∧
      (PE.parse cfI386).error = .NotSupportedMachine) ∧
    ((PE.parse cfBadMagic).ok = false ∧
      (load cfBadMagic hostOk 5 5 5 5).result = none ∧
      (load cfBadMagic hostOk 5 5 5 5).events = []) :=
  ⟨⟨by decide, c8_error_kinds.1 cfBadMagic (by decide)⟩,
   ⟨by decide,
     (c8_error_kinds.2.2.1 cfI386 (by decide) (by decide) (by decide) (by decide)).2⟩,
   ⟨by decide, c8_error_kinds.2.2.2 cfBadMagic hostOk 5 5 5 5 (by decide)⟩⟩

/-! ## C2 — the parse-time bounds invariants are not enforced -/

/-- C2 (code bug): `cfOob` passes every check `PE::Parse` performs (DOS magic,
`e_lfanew` lower bound, NT signature, AMD64 machine), so `Ok()` is true, yet
its single section has `PointerToRawData + SizeOfRawData` = 65903 > 496 =
`len(bytes)` — the parse-time bounds invariant of the claim is violated by an
accepted image; the source contains no such bounds check. -/
theorem c2_parser_accepts_oob_section :
    (PE.parse cfOob).ok = true ∧
    ∃ s ∈ (PE.parse cfOob).sections,
      cfOob.length < s.pointerToRawData + s.sizeOfRawData := by decide

/-! ## C3 — recording of auxiliary module handles -/

/-- The loop `procThunks` never reports `loadFail`; that status belongs to the
descriptor loop. -/
theorem procThunks_no_loadFail (host : Host) (b : Buf) (h : Nat) :
    ∀ (fuel oft iat : Nat), (procThunks host b h fuel oft iat).1 ≠ .loadFail := by
  intro fuel
  induction fuel with
  | zero => intro oft iat; simp [procThunks]
  | succ fuel ih =>
    intro oft iat
    simp only [procThunks]
    by_cases ht : readB64 b oft = 0
    · simp [ht]
    · simp only [ht, if_neg, ite_false]
      by_cases hf : resolveThunk host h (readB64 b oft) = 0
      · simp [hf]
      · simp only [hf, ite_false]
        exact ih (oft + 8) (iat + 8)

/-- C3 (corrected): a handle is recorded only after every thunk of its
descriptor has resolved.  If the walk ends with `done` (terminator reached) or
`loadFail` (`LoadLibraryA` returned null), every loaded handle was recorded;
but if it ends with `resolveFail` (`GetProcAddress` returned null), exactly
one loaded handle — the current DLL's — is missing from the recorded list, so
the `MappedImage` destructor will not release it. -/
theorem c3_recording_after_resolution (host : Host) (b : Buf) (fuelT : Nat) :
    ∀ (fuelD desc : Nat),
      ((buildIATGo host b fuelT fuelD desc).status = .done ∨
          (buildIATGo host b fuelT fuelD desc).status = .loadFail →
        (buildIATGo host b fuelT fuelD desc).loaded =
          (buildIATGo host b fuelT fuelD desc).recorded) ∧
      ((buildIATGo host b fuelT fuelD desc).status = .resolveFail →
        ∃ h, h ≠ 0 ∧
          (buildIATGo host b fuelT fuelD desc).loaded =
            (buildIATGo host b fuelT fuelD desc).recorded ++ [h]) := by
  intro fuelD
  induction fuelD with
  | zero =>
    intro desc
    constructor
    · intro h
      rcases h with h | h <;> simp [buildIATGo] at h
    · intro h
      simp [buildIATGo] at h
  | succ fuelD ih =>
    intro desc
    by_cases hc : readB32 b desc = 0
    · constructor
      · intro _; simp [buildIATGo, hc]
      · intro h; simp [buildIATGo, hc] at h
    · by_cases hh : host.loadLib (readB32 b (desc + 12)) = 0
      · constructor
        · intro _; simp [buildIATGo, hc, hh]
        · intro h; simp [buildIATGo, hc, hh] at h
      · cases hst : (procThunks host b (host.loadLib (readB32 b (desc + 12))) fuelT
            (readB32 b desc) (readB32 b (desc + 16))).1 with
        | done =>
          have heq : buildIATGo host b fuelT (fuelD + 1) desc =
              ⟨(buildIATGo host b fuelT fuelD (desc + 20)).status,
                (procThunks host b (host.loadLib (readB32 b (desc + 12))) fuelT
                  (readB32 b desc) (readB32 b (desc + 16))).2 ++
                  (buildIATGo host b fuelT fuelD (desc + 20)).writes,
                host.loadLib (readB32 b (desc + 12)) ::
                  (buildIATGo host b fuelT fuelD (desc + 20)).recorded,
                host.loadLib (readB32 b (desc + 12)) ::
                  (buildIATGo host b fuelT fuelD (desc + 20)).loaded⟩ := by
            simp only [buildIATGo, hc, if_neg, ite_false, hh]
            rw [hst]
          rw [heq]
          constructor
          · intro h
            simp only at h ⊢
            rw [(ih (desc + 20)).1 h]
          · intro h
            simp only at h ⊢
            obtain ⟨x, hx0, hx⟩ := (ih (desc + 20)).2 h
            exact ⟨x, hx0, by rw [hx]; rfl⟩
        | loadFail =>
          exact absurd hst (procThunks_no_loadFail host b _ fuelT _ _)
        | resolveFail =>
          have heq : buildIATGo host b fuelT (fuelD + 1) desc =
              ⟨.resolveFail,
                (procThunks host b (host.loadLib (readB32 b (desc + 12))) fuelT
                  (readB32 b desc) (readB32 b (desc + 16))).2,
                [], [host.loadLib (readB32 b (desc + 12))]⟩ := by
            simp only [buildIATGo, hc, if_neg, ite_false, hh]
            rw [hst]
          rw [heq]
          constructor
          · intro h
            simp only at h
            rcases h with h | h <;> exact absurd h (by simp)
          · intro _
            exact ⟨host.loadLib (readB32 b (desc + 12)), hh, rfl⟩
        | fuelOut =>
          have heq : buildIATGo host b fuelT (fuelD + 1) desc =
              ⟨.fuelOut,
                (procThunks host b (host.loadLib (readB32 b (desc + 12))) fuelT
                  (readB32 b desc) (readB32 b (desc + 16))).2,
                [], [host.loadLib (readB32 b (desc + 12))]⟩ := by
            simp only [buildIATGo, hc, if_neg, ite_false, hh]
            rw [hst]
          rw [heq]
          constructor
          · intro h
            simp only at h
            rcases h with h | h <;> exact absurd h (by simp)
          · intro h
            exact absurd h (by simp)

/-- Counterexample to C3 as stated: running `BuildIAT` on the staged `cfOk`
region with a host whose `GetProcAddress` always fails, `LoadLibraryA` has
succeeded (handle 7 was loaded) but the walk fails during symbol resolution
for that same DLL's thunks with nothing recorded — the claim that every
successfully loaded handle is recorded before any subsequent failure is false
at this input, and the destructor (which releases only recorded handles)
would leak handle 7. -/
theorem c3_counterexample :
    (buildIAT hostResolveFail (loadModule cfOk 0x400000).1 (loadModule cfOk 0x400000).2 5 5).status =
      .resolveFail ∧
    (buildIAT hostResolveFail (loadModule cfOk 0x400000).1 (loadModule cfOk 0x400000).2 5 5).loaded =
      [7] ∧
    (buildIAT hostResolveFail (loadModule cfOk 0x400000).1 (loadModule cfOk 0x400000).2 5 5).recorded =
      [] ∧
    (destroyEvents
      { (loadModule cfOk 0x400000).1 with
        importModules :=
          (buildIAT hostResolveFail (loadModule cfOk 0x400000).1
            (loadModule cfOk 0x400000).2 5 5).recorded }).count (Ev.freelib 7) = 0 := by
  decide

/-- Witness for C3's corrected statement, at the staged `cfOk` region with the
failing resolver: the walk ends in `resolveFail` and the loaded list exceeds
the recorded list by exactly the one leaked handle. -/
theorem c3_witness :
    (buildIATGo hostResolveFail (loadModule cfOk 0x400000).2 5 5 0x1000).status = .resolveFail ∧
    ∃ h, h ≠ 0 ∧
      (buildIATGo hostResolveFail (loadModule cfOk 0x400000).2 5 5 0x1000).loaded =
        (buildIATGo hostResolveFail (loadModule cfOk 0x400000).2 5 5 0x1000).recorded ++ [h] :=
  ⟨by decide,
    (c3_recording_after_resolution hostResolveFail (loadModule cfOk 0x400000).2 5 5 0x1000).2
      (by decide)⟩

/-! ## C6 — import walk: terminator, thunk table choice, lockstep stores -/

/-- The per-DLL thunk loop, solved: if the first `K` thunk words of the table
at `oft` are non-zero and resolve, and the word at index `K` is zero, the loop
performs exactly `K` stores, the `k`-th going to IAT slot `iat + 8 * k` with
the resolution of the `k`-th thunk — both arrays advancing in lockstep — and
stops at the zero thunk. -/
theorem procThunks_lockstep (host : Host) (b : Buf) (h : Nat) :
    ∀ (K fuel oft iat : Nat), K < fuel →
      (∀ k, k < K → readB64 b (oft + 8 * k) ≠ 0 ∧
        resolveThunk host h (readB64 b (oft + 8 * k)) ≠ 0) →
      readB64 b (oft + 8 * K) = 0 →
      procThunks host b h fuel oft iat =
        (.done, (List.range K).map
          (fun k => (iat + 8 * k, resolveThunk host h (readB64 b (oft + 8 * k))))) := by
  intro K
  induction K with
  | zero =>
    intro fuel oft iat hfuel _ hz
    obtain ⟨f, rfl⟩ : ∃ f, fuel = f + 1 := ⟨fuel - 1, by omega⟩
    have hz0 : readB64 b oft = 0 := by simpa using hz
    simp [procThunks, hz0]
  | succ K ih =>
    intro fuel oft iat hfuel hnz hz
    obtain ⟨f, rfl⟩ : ∃ f, fuel = f + 1 := ⟨fuel - 1, by omega⟩
    have h0 := hnz 0 (by omega)
    have ht0 : readB64 b oft ≠ 0 := by simpa using h0.1
    have hf0 : resolveThunk host h (readB64 b oft) ≠ 0 := by
      have := h0.2; simpa using this
    have hrec := ih f (oft + 8) (iat + 8) (by omega)
      (fun k hk => by
        have := hnz (k + 1) (by omega)
        constructor
        · have h1 := this.1
          have harith : oft + 8 * (k + 1) = oft + 8 + 8 * k := by ring
          rwa [harith] at h1
        · have h2 := this.2
          have harith : oft + 8 * (k + 1) = oft + 8 + 8 * k := by ring
          rwa [harith] at h2)
      (by
        have harith : oft + 8 * (K + 1) = oft + 8 + 8 * K := by ring
        rwa [harith] at hz)
    simp only [procThunks, ht0, ite_false, hf0, hrec]
    refine congrArg (Prod.mk IATStatus.done) ?_
    apply List.ext_getElem
    · simp
    · intro i hi1 hi2
      rcases i with _ | i
      · norm_num
      · simp only [List.getElem_cons_succ, List.getElem_map, List.getElem_range, Prod.mk.injEq]
        constructor
        · ring
        · have ha : oft + 8 * (i + 1) = oft + 8 + 8 * i := by ring
          rw [ha]

/-- C6: the descriptor walk terminates at `Characteristics == 0` (whatever the
`Name` field holds — the result does not depend on it); for a processed
descriptor the thunks are read from the `OriginalFirstThunk` field (`readB32 b
desc`, the union shared with `Characteristics`, which is what makes the
`FirstThunk` fallback in the source unreachable: a zero `OriginalFirstThunk`
is a zero `Characteristics` and already ends the walk); the per-DLL loop stops
at the first zero thunk; and the `k`-th resolved address is stored into IAT
slot `FirstThunk + 8 * k`, the two arrays advancing in lockstep. -/
theorem c6_import_walk (host : Host) (b : Buf) (fuelT fuelD desc : Nat) :
    (readB32 b desc = 0 → buildIATGo host b fuelT (fuelD + 1) desc = ⟨.done, [], [], []⟩) ∧
    (∀ h K, readB32 b desc ≠ 0 →
      host.loadLib (readB32 b (desc + 12)) = h → h ≠ 0 →
      K < fuelT →
      (∀ k, k < K → readB64 b (readB32 b desc + 8 * k) ≠ 0 ∧
        resolveThunk host h (readB64 b (readB32 b desc + 8 * k)) ≠ 0) →
      readB64 b (readB32 b desc + 8 * K) = 0 →
      buildIATGo host b fuelT (fuelD + 1) desc =
        ⟨(buildIATGo host b fuelT fuelD (desc + 20)).status,
          (List.range K).map (fun k =>
            (readB32 b (desc + 16) + 8 * k,
              resolveThunk host h (readB64 b (readB32 b desc + 8 * k)))) ++
            (buildIATGo host b fuelT fuelD (desc + 20)).writes,
          h :: (buildIATGo host b fuelT fuelD (desc + 20)).recorded,
          h :: (buildIATGo host b fuelT fuelD (desc + 20)).loaded⟩) := by
  constructor
  · intro hc
    simp [buildIATGo, hc]
  · intro h K hc hload hh hK hnz hz
    have hrec := procThunks_lockstep host b h K fuelT (readB32 b desc)
      (readB32 b (desc + 16)) hK hnz hz
    simp only [buildIATGo, hc, ite_false, hload, if_neg hh, hrec]

/-- Witness for C6 at the staged `cfOk` region: the descriptor at RVA 0x1000
has one thunk (`K = 1`), resolved through handle 7 and stored at IAT slot
0x1050; the terminator descriptor at RVA 0x1014 ends the walk with nothing
done although its remaining fields are whatever the template holds. -/
theorem c6_witness :
    (readB32 (loadModule cfOk 0x400000).2 0x1014 = 0 ∧
      buildIATGo hostOk (loadModule cfOk 0x400000).2 5 (4 + 1) 0x1014 = ⟨.done, [], [], []⟩) ∧
    (readB32 (loadModule cfOk 0x400000).2 0x1000 ≠ 0 ∧
      readB64 (loadModule cfOk 0x400000).2 (readB32 (loadModule cfOk 0x400000).2 0x1000 + 8 * 1) = 0 ∧
      buildIATGo hostOk (loadModule cfOk 0x400000).2 5 (4 + 1) 0x1000 =
        ⟨(buildIATGo hostOk (loadModule cfOk 0x400000).2 5 4 (0x1000 + 20)).status,
          (List.range 1).map (fun k =>
            (readB32 (loadModule cfOk 0x400000).2 (0x1000 + 16) + 8 * k,
              resolveThunk hostOk 7
                (readB64 (loadModule cfOk 0x400000).2
                  (readB32 (loadModule cfOk 0x400000).2 0x1000 + 8 * k)))) ++
            (buildIATGo hostOk (loadModule cfOk 0x400000).2 5 4 (0x1000 + 20)).writes,
          7 :: (buildIATGo hostOk (loadModule cfOk 0x400000).2 5 4 (0x1000 + 20)).recorded,
          7 :: (buildIATGo hostOk (loadModule cfOk 0x400000).2 5 4 (0x1000 + 20)).loaded⟩) :=
  ⟨⟨by decide,
      (c6_import_walk hostOk (loadModule cfOk 0x400000).2 5 4 0x1014).1 (by decide)⟩,
    ⟨by decide, by decide,
      (c6_import_walk hostOk (loadModule cfOk 0x400000).2 5 4 0x1000).2 7 1 (by decide)
        (by decide) (by decide) (by decide) (by decide) (by decide)⟩⟩

/-! ## C7 — section protection finalization -/

/-- The pass `FinalizeSection` succeeds exactly when every per-section
`VirtualProtect` succeeds. -/
theorem finalizeGo_true_iff (host : Host) (base : Nat) :
    ∀ l : List SectionHeader,
      (finalizeGo host base l).1 = true ↔
        ∀ s ∈ l, host.protOk (base + s.virtualAddress) s.virtualSize
          (protOf s.characteristics) = true := by
  intro l
  induction l with
  | nil => simp [finalizeGo]
  | cons s rest ih =>
    by_cases hs : host.protOk (base + s.virtualAddress) s.virtualSize (protOf s.characteristics) = true
    · simp [finalizeGo, hs, ih]
    · simp [finalizeGo, hs]

/-- On a fully successful pass, the `VirtualProtect` calls are exactly one per
section in order, over `[base + VirtualAddress, base + VirtualAddress +
VirtualSize)` with the protection of the truth table. -/
theorem finalizeGo_events (host : Host) (base : Nat) :
    ∀ l : List SectionHeader,
      (finalizeGo host base l).1 = true →
      (finalizeGo host base l).2 = l.map (fun s =>
        Ev.vprotect (base + s.virtualAddress) s.virtualSize (protOf s.characteristics)) := by
  intro l
  induction l with
  | nil => intro _; rfl
  | cons s rest ih =>
    intro h
    by_cases hs : host.protOk (base + s.virtualAddress) s.virtualSize (protOf s.characteristics) = true
    · simp only [finalizeGo, hs, if_pos, ite_true, List.map_cons]
      simp only [finalizeGo, hs, ite_true] at h
      rw [ih h]
    · simp [finalizeGo, hs] at h

/-- C7: the protection truth table over the `MEM_WRITE` and `MEM_EXECUTE`
bits (neither → `PAGE_READONLY`, execute only → `PAGE_EXECUTE_READ`, write
only → `PAGE_READWRITE`, both → `PAGE_EXECUTE_READWRITE`); the finalize pass
issues exactly one `VirtualProtect` per section over `[base + VirtualAddress,
base + VirtualAddress + VirtualSize)` when it succeeds, succeeds iff every
call succeeds; and a finalize failure makes the whole load return empty. -/
theorem c7_finalize_protections (file : List Nat) (host : Host)
    (fuelD fuelT fuelB fuelE base : Nat)
    (h1 : (PE.parse file).ok = true)
    (h2 : host.allocBase = some base)
    (h3 : (loadModule file base).1.ok = true)
    (h4 : (buildIAT host (loadModule file base).1 (loadModule file base).2 fuelD fuelT).status =
      .done)
    (h5 : (finalizeGo host base (loadModule file base).1.sections).1 = false) :
    (∀ c : Nat,
      (c &&& 0x80000000 ≠ 0x80000000 → c &&& 0x20000000 ≠ 0x20000000 → protOf c = 0x02) ∧
      (c &&& 0x80000000 ≠ 0x80000000 → c &&& 0x20000000 = 0x20000000 → protOf c = 0x20) ∧
      (c &&& 0x80000000 = 0x80000000 → c &&& 0x20000000 ≠ 0x20000000 → protOf c = 0x04) ∧
      (c &&& 0x80000000 = 0x80000000 → c &&& 0x20000000 = 0x20000000 → protOf c = 0x40)) ∧
    (∀ l : List SectionHeader,
      ((finalizeGo host base l).1 = true ↔
        ∀ s ∈ l, host.protOk (base + s.virtualAddress) s.virtualSize
          (protOf s.characteristics) = true) ∧
      ((finalizeGo host base l).1 = true →
        (finalizeGo host base l).2 = l.map (fun s =>
          Ev.vprotect (base + s.virtualAddress) s.virtualSize (protOf s.characteristics)))) ∧
    (load file host fuelD fuelT fuelB fuelE).result = none := by
  refine ⟨?_, ?_, ?_⟩
  · intro c
    refine ⟨?_, ?_, ?_, ?_⟩ <;> intro hw hx <;> simp [protOf, hw, hx]
  · intro l
    exact ⟨finalizeGo_true_iff host base l, finalizeGo_events host base l⟩
  · simp only [load, h1, Bool.true_eq_false, ite_false, h2]
    simp only [h3, Bool.true_eq_false, ite_false, h4, ite_true]
    simp only [h5, Bool.false_eq_true, ite_false]

/-- Witness for C7: loading `cfOk` with `hostProtFail` (every `VirtualProtect`
fails) reaches the finalize phase and returns empty. -/
theorem c7_witness :
    ((PE.parse cfOk).ok = true ∧
      hostProtFail.allocBase = some 0x400000 ∧
      (loadModule cfOk 0x400000).1.ok = true ∧
      (buildIAT hostProtFail (loadModule cfOk 0x400000).1 (loadModule cfOk 0x400000).2 5 5).status =
        .done ∧
      (finalizeGo hostProtFail 0x400000 (loadModule cfOk 0x400000).1.sections).1 = false) ∧
    (load cfOk hostProtFail 5 5 5 5).result = none :=
  ⟨⟨by decide, by decide, by decide, by decide, by decide⟩,
    (c7_finalize_protections cfOk hostProtFail 5 5 5 5 0x400000 (by decide) (by decide)
      (by decide) (by decide) (by decide)).2.2⟩

/-! ## C4 — release discipline after a successful load -/

/-- C4 (code bug): a successful `Load` of `cfOk` followed by destruction of
the returned module releases handle 7 twice and `VirtualFree`s the region
twice, not exactly once.  `return mod;` copies the local `Module` into the
returned `std::optional<Module>` (the user-declared destructor suppresses the
implicit move constructor, and copy elision cannot apply across the
`Module` → `std::optional<Module>` conversion), so the local module's
destructor already runs inside `Load` — its `FreeLibrary`/`VirtualFree` calls
appear in `Load`'s own event trace — and the returned copy's destructor
repeats them. -/
theorem c4_release_twice :
    (load cfOk hostOk 5 5 5 5).result.isSome = true ∧
    ((load cfOk hostOk 5 5 5 5).events ++
        destroyEvents ((load cfOk hostOk 5 5 5 5).result.getD
          ⟨0, 0, true, .Success, 0, [], []⟩)).count (Ev.freelib 7) = 2 ∧
    ((load cfOk hostOk 5 5 5 5).events ++
        destroyEvents ((load cfOk hostOk 5 5 5 5).result.getD
          ⟨0, 0, true, .Success, 0, [], []⟩)).count (Ev.vfree 0x400000 0x3000) = 2 := by
  decide

/-! ## C1 — the two header-copy passes of Phase 2 -/

/-- Shape of an accepted parse: the buffer is kept, `e_lfanew` is the 32-bit
read at offset 60, and the section index is `NumberOfSections` consecutive
40-byte headers from `sectionTableStart`. -/
theorem PE.parse_ok_shape (bs : List Nat) (h : (PE.parse bs).ok = true) :
    (PE.parse bs).data = bs ∧
    (PE.parse bs).eLfanew = readLE32 bs 60 ∧
    (PE.parse bs).sections = (List.range ((PE.parse bs).numberOfSections)).map
      (fun k => sectionAt bs ((PE.parse bs).sectionTableStart + 40 * k)) := by
  simp only [PE.parse] at h ⊢
  split_ifs at h ⊢
  all_goals exact ⟨rfl, rfl, rfl⟩

/-- The quantity `header_bytes` — the address difference
`(byte*)sectionHeaders[0] - rawData.data()` — is the file offset of the
START of the section table: it does not include the section table itself. -/
theorem headerBytes_eq_sectionTableStart (bs : List Nat)
    (hok : (PE.parse bs).ok = true) (hn : 1 ≤ (PE.parse bs).numberOfSections) :
    headerBytes (PE.parse bs) = (PE.parse bs).sectionTableStart := by
  obtain ⟨_, _, hsec⟩ := PE.parse_ok_shape bs hok
  unfold headerBytes
  rw [hsec]
  obtain ⟨m, hm⟩ : ∃ m, (PE.parse bs).numberOfSections = m + 1 :=
    ⟨(PE.parse bs).numberOfSections - 1, by omega⟩
  rw [hm, List.range_succ_eq_map]
  simp [sectionAt]

theorem byteAt_drop_take (file : List Nat) (off d n : Nat) (hd : d < n) :
    byteAt ((file.drop off).take n) d = byteAt file (off + d) := by
  unfold byteAt
  simp [List.getD, List.getElem?_take, hd, List.getElem?_drop]

theorem byteAt_take (file : List Nat) (d n : Nat) (hd : d < n) :
    byteAt (file.take n) d = byteAt file d := by
  unfold byteAt
  simp [List.getD, List.getElem?_take, hd]

/-- An in-bounds `BinaryWriter` write, solved. -/
theorem writeSpan_fits (bw : BinaryWriter) (data : List Nat)
    (h : bw.pos + data.length ≤ bw.size) :
    (bw.writeSpan data).size = bw.size ∧
    (bw.writeSpan data).pos = bw.pos + data.length ∧
    ∀ i, (bw.writeSpan data).buf i =
      if bw.pos ≤ i ∧ i < bw.pos + data.length then byteAt data (i - bw.pos) else bw.buf i := by
  unfold BinaryWriter.writeSpan
  rw [if_pos h]
  exact ⟨rfl, rfl, fun i => rfl⟩

/-- The second pass of Phase 2, solved: writing the `n` 40-byte section
headers of offsets `st + 40 * j, st + 40 * (j + 1), …` in order, starting at
position `st + 40 * j`, fills `[st + 40 * j, st + 40 * (j + n))` with the
corresponding file bytes and moves the position to the end of the table. -/
theorem goHdrs_spec (file : List Nat) (st sz : Nat) :
    ∀ (n j : Nat) (bw : BinaryWriter),
      bw.size = sz → bw.pos = st + 40 * j →
      st + 40 * (j + n) ≤ sz → st + 40 * (j + n) ≤ file.length →
      (((List.range' j n).map (fun k => sectionAt file (st + 40 * k))).foldl
          (fun b s => b.writeSpan ((file.drop s.hdrOff).take 40)) bw).size = sz ∧
      (((List.range' j n).map (fun k => sectionAt file (st + 40 * k))).foldl
          (fun b s => b.writeSpan ((file.drop s.hdrOff).take 40)) bw).pos =
        st + 40 * (j + n) ∧
      ∀ i, (((List.range' j n).map (fun k => sectionAt file (st + 40 * k))).foldl
          (fun b s => b.writeSpan ((file.drop s.hdrOff).take 40)) bw).buf i =
        if st + 40 * j ≤ i ∧ i < st + 40 * (j + n) then byteAt file i else bw.buf i := by
  intro n
  induction n with
  | zero =>
    intro j bw hsz hpos _ _
    have h0 : (List.range' j 0).map (fun k => sectionAt file (st + 40 * k)) = [] := rfl
    rw [h0]
    simp only [List.foldl_nil]
    refine ⟨hsz, by omega, ?_⟩
    intro i
    rw [if_neg (by omega)]
  | succ n ih =>
    intro j bw hsz hpos hsz2 hlen
    rw [List.range'_succ, List.map_cons, List.foldl_cons]
    have hhdr : (sectionAt file (st + 40 * j)).hdrOff = st + 40 * j := rfl
    rw [hhdr]
    have hslicelen : ((file.drop (st + 40 * j)).take 40).length = 40 := by
      apply List.length_take_of_le
      rw [List.length_drop]
      omega
    have hcan : bw.pos + ((file.drop (st + 40 * j)).take 40).length ≤ bw.size := by
      rw [hslicelen, hsz, hpos]; omega
    obtain ⟨hb1sz, hb1pos, hb1buf⟩ := writeSpan_fits bw _ hcan
    simp only [hslicelen, hpos] at hb1pos hb1buf
    have hres := ih (j + 1) (bw.writeSpan ((file.drop (st + 40 * j)).take 40))
      (by rw [hb1sz, hsz]) (by rw [hb1pos]; omega) (by omega) (by omega)
    refine ⟨hres.1, by rw [hres.2.1]; omega, ?_⟩
    intro i
    rw [hres.2.2 i]
    by_cases hin : st + 40 * (j + 1) ≤ i ∧ i < st + 40 * (j + 1 + n)
    · rw [if_pos hin, if_pos (by omega)]
    · rw [if_neg hin, hb1buf i]
      by_cases hw : st + 40 * j ≤ i ∧ i < st + 40 * j + 40
      · rw [if_pos hw, if_pos (by omega), byteAt_drop_take file _ _ _ (by omega)]
        congr 1
        omega
      · rw [if_neg hw, if_neg (by omega)]

/-- C1 (corrected): `header_bytes` is the length of the image up to but NOT
including the section table; after the single block write the section-table
area of the region is still zero-initialised; the per-section-header pass then
writes the section table (it is not a redundant overwrite of identical bytes),
after which the region matches the on-disk image on the whole of
`[0, sectionTableEnd)` and the cursor stands at the section-table end. -/
theorem c1_header_copy (file : List Nat)
    (h0 : (PE.parse file).ok = true)
    (h1 : 1 ≤ (PE.parse file).numberOfSections)
    (h2 : (PE.parse file).sectionTableEnd ≤ (PE.parse file).sizeOfImage)
    (h3 : (PE.parse file).sectionTableEnd ≤ file.length) :
    headerBytes (PE.parse file) = (PE.parse file).sectionTableStart ∧
    (phase2 file (PE.parse file) ⟨fun _ => 0, (PE.parse file).sizeOfImage, 0⟩).pos =
      (PE.parse file).sectionTableEnd ∧
    (∀ i, i < (PE.parse file).sectionTableEnd →
      (phase2 file (PE.parse file) ⟨fun _ => 0, (PE.parse file).sizeOfImage, 0⟩).buf i =
        byteAt file i) ∧
    (∀ i, (PE.parse file).sectionTableStart ≤ i →
      ((⟨fun _ => 0, (PE.parse file).sizeOfImage, 0⟩ : BinaryWriter).writeSpan
        (file.take (headerBytes (PE.parse file)))).buf i = 0) := by
  obtain ⟨hdata, _, hsec⟩ := PE.parse_ok_shape file h0
  have hhb := headerBytes_eq_sectionTableStart file h0 h1
  have hstend : (PE.parse file).sectionTableEnd =
      (PE.parse file).sectionTableStart + 40 * (PE.parse file).numberOfSections := rfl
  -- the block write of `headerBytes` bytes
  have htklen : (file.take (headerBytes (PE.parse file))).length = headerBytes (PE.parse file) := by
    apply List.length_take_of_le
    rw [hhb]; omega
  have hcan : (0 : Nat) + (file.take (headerBytes (PE.parse file))).length ≤
      (PE.parse file).sizeOfImage := by
    rw [htklen, hhb]; omega
  obtain ⟨hb1sz, hb1pos, hb1buf⟩ :=
    writeSpan_fits ⟨fun _ => 0, (PE.parse file).sizeOfImage, 0⟩
      (file.take (headerBytes (PE.parse file))) hcan
  simp only [htklen, Nat.zero_add, Nat.sub_zero] at hb1pos hb1buf
  -- the per-section-header pass on top of it
  have hfold := goHdrs_spec file (PE.parse file).sectionTableStart (PE.parse file).sizeOfImage
    (PE.parse file).numberOfSections 0
    ((⟨fun _ => 0, (PE.parse file).sizeOfImage, 0⟩ : BinaryWriter).writeSpan
      (file.take (headerBytes (PE.parse file))))
    hb1sz (by rw [hb1pos]; omega) (by omega) (by omega)
  have hphase2 : phase2 file (PE.parse file) ⟨fun _ => 0, (PE.parse file).sizeOfImage, 0⟩ =
      ((List.range' 0 ((PE.parse file).numberOfSections)).map
        (fun k => sectionAt file ((PE.parse file).sectionTableStart + 40 * k))).foldl
        (fun b s => b.writeSpan ((file.drop s.hdrOff).take 40))
        ((⟨fun _ => 0, (PE.parse file).sizeOfImage, 0⟩ : BinaryWriter).writeSpan
          (file.take (headerBytes (PE.parse file)))) := by
    unfold phase2
    rw [hsec, List.range_eq_range']
  refine ⟨hhb, ?_, ?_, ?_⟩
  · rw [hphase2, hfold.2.1]; omega
  · intro i hi
    rw [hphase2, hfold.2.2 i]
    by_cases hin : (PE.parse file).sectionTableStart ≤ i
    · rw [if_pos (by omega)]
    · rw [if_neg (by omega), hb1buf i, if_pos (by omega),
        byteAt_take file _ _ (by omega)]
  · intro i hi
    rw [hb1buf i, if_neg (by omega)]

/-- Counterexample to C1 as stated, at the concrete image `cfOk`:
`header_bytes` = 328 is the offset where the section table STARTS, not 368
where it ends — it does not include the section table — and the
per-section-header pass is not a benign overwrite of identical bytes: at
offset 341 (inside the section header's `VirtualAddress`) the block write
alone leaves 0 where the full Phase 2 leaves the file byte 0x10. -/
theorem c1_counterexample :
    headerBytes (PE.parse cfOk) ≠ (PE.parse cfOk).sectionTableEnd ∧
    (phase2 cfOk (PE.parse cfOk) ⟨fun _ => 0, (PE.parse cfOk).sizeOfImage, 0⟩).buf 341 ≠
      ((⟨fun _ => 0, (PE.parse cfOk).sizeOfImage, 0⟩ : BinaryWriter).writeSpan
        (cfOk.take (headerBytes (PE.parse cfOk)))).buf 341 := by
  decide

/-- Witness for C1's corrected statement at `cfOk`: `header_bytes` is the
section-table start 328, the Phase 2 cursor ends at the table end 368, and the
region byte at 341 equals the file byte there after both passes. -/
theorem c1_witness :
    ((PE.parse cfOk).ok = true ∧ 1 ≤ (PE.parse cfOk).numberOfSections ∧
      (PE.parse cfOk).sectionTableEnd ≤ (PE.parse cfOk).sizeOfImage ∧
      (PE.parse cfOk).sectionTableEnd ≤ cfOk.length) ∧
    headerBytes (PE.parse cfOk) = (PE.parse cfOk).sectionTableStart ∧
    (phase2 cfOk (PE.parse cfOk) ⟨fun _ => 0, (PE.parse cfOk).sizeOfImage, 0⟩).pos =
      (PE.parse cfOk).sectionTableEnd ∧
    (phase2 cfOk (PE.parse cfOk) ⟨fun _ => 0, (PE.parse cfOk).sizeOfImage, 0⟩).buf 341 =
      byteAt cfOk 341 :=
  ⟨⟨by decide, by decide, by decide, by decide⟩,
    (c1_header_copy cfOk (by decide) (by decide) (by decide) (by decide)).1,
    (c1_header_copy cfOk (by decide) (by decide) (by decide) (by decide)).2.1,
    (c1_header_copy cfOk (by decide) (by decide) (by decide) (by decide)).2.2.1 341 (by decide)⟩

end Torpedo
